import Mathlib

/-!
Verification of the TRACE structural-variant pipeline's core text-processing
stages against their specification.  The Python sources `vcf2bed.py`,
`bed_processor.py` and `squash_intersect.py` are shallowly embedded below:
strings are `List Char`, Python's unbounded `int` is `Int`, fallible
operations return `Option`, and a raised exception that escapes to the
top-level handler (aborting the run) is modelled as an explicit outcome.

Conventions of the embedding:
* `re.search(f'NAME=([^;]+)', s)` is modelled by a leftmost scan that, at each
  position, checks for the literal `NAME=` followed by a nonempty run of
  non-semicolon characters (Python's regex engine advances the start position
  when the `[^;]+` group cannot match, which the scan reproduces).
* the three anchored BND `ALT` regexes are modelled by a deterministic parser;
  because the character classes involved (`[ACGTN]`, `[\[\]]`, `[^:]`, `\d`)
  are pairwise arranged so that greedy matching admits no useful backtracking,
  the regexes denote unambiguous decompositions, stated independently as
  `pat1Decomp`/`pat2Decomp`/`pat3Decomp`.  `$` is modelled as end-of-string
  and `\d` as an ASCII digit, which agree with the regex semantics on every
  string the program can pass (fields of a whitespace-stripped,
  tab-split line).
* `str(n)` for an integer is modelled by a decimal printer `intRepr`.
-/

namespace TRACE

/-- Characters removed by Python `str.strip()` (ASCII whitespace). -/
def isPySpace (c : Char) : Bool :=
  c == ' ' || c == '\t' || c == '\n' || c == '\r' || c == '\x0b' || c == '\x0c'

/-- Model of Python `line.strip()`. -/
def pyStrip (s : List Char) : List Char :=
  ((s.dropWhile isPySpace).reverse.dropWhile isPySpace).reverse

/-- Model of Python `s.split('\t')` (keeps empty pieces, `"".split` gives one empty piece). -/
def splitTab (s : List Char) : List (List Char) := s.splitOn '\t'

/-- Model of Python `'\t'.join(fields)`. -/
def joinTab (fs : List (List Char)) : List Char := List.intercalate ['\t'] fs

/-- Numeric value of a decimal digit string (most significant digit first). -/
def digitsToNat (ds : List Char) : Nat := ds.foldl (fun a c => 10 * a + (c.toNat - 48)) 0

/-- Model of Python `int(s)`: optional surrounding whitespace, optional sign,
then a nonempty run of decimal digits; anything else raises `ValueError`,
modelled as `none`. -/
def pyInt? (s : List Char) : Option Int :=
  match pyStrip s with
  | '-' :: ds => if ds ≠ [] ∧ ds.all Char.isDigit then some (-(digitsToNat ds : Int)) else none
  | '+' :: ds => if ds ≠ [] ∧ ds.all Char.isDigit then some ((digitsToNat ds : Int)) else none
  | ds => if ds ≠ [] ∧ ds.all Char.isDigit then some ((digitsToNat ds : Int)) else none

/-- The character for a decimal digit value. -/
def digitChar : Nat → Char
  | 0 => '0' | 1 => '1' | 2 => '2' | 3 => '3' | 4 => '4'
  | 5 => '5' | 6 => '6' | 7 => '7' | 8 => '8' | _ => '9'

/-- Decimal digits of `n`, most significant first, with explicit fuel. -/
def natReprAux : Nat → Nat → List Char
  | 0, _ => []
  | fuel + 1, n =>
    if n < 10 then [digitChar n]
    else natReprAux fuel (n / 10) ++ [digitChar (n % 10)]

/-- Model of Python `str(n)` for a natural number. -/
def natRepr (n : Nat) : List Char := natReprAux (n + 1) n

/-- Model of Python `str(n)` for an integer. -/
def intRepr (n : Int) : List Char :=
  if n < 0 then '-' :: natRepr n.natAbs else natRepr n.natAbs

/-- Model of Python `pat in s` (substring containment). -/
def hasSubstr (pat : List Char) : List Char → Bool
  | [] => pat.isEmpty
  | c :: rest => pat.isPrefixOf (c :: rest) || hasSubstr pat rest

/-- Leftmost-match scan behind `re.search(f'NAME=([^;]+)', info)`: at each
starting position try to read the literal `name` followed by `=` followed by a
nonempty greedy run of non-`;` characters; return the first such run. -/
def searchKV (name : List Char) : List Char → Option (List Char)
  | [] => none
  | c :: rest =>
    let v := ((c :: rest).drop (name.length + 1)).takeWhile (fun x => x != ';')
    if (name ++ ['=']).isPrefixOf (c :: rest) ∧ v ≠ [] then some v
    else searchKV name rest

/-- Embedding of `vcf2bed.extract_info_field(info_string, field_name)`. -/
def extract_info_field (info_string field_name : List Char) : Option (List Char) :=
  searchKV field_name info_string

/-- The nucleotide class `[ACGTN]` of the BND ALT regexes. -/
def isBaseChar (c : Char) : Bool :=
  c == 'A' || c == 'C' || c == 'G' || c == 'T' || c == 'N'

/-- The bracket class of the BND ALT regexes. -/
def isBracketChar (c : Char) : Bool := c == '[' || c == ']'

/-- Shared tail of the three BND ALT regexes: `([^:]+):(\d+)[\[\]]`, returning
the chromosome group, the numeric position group, and the rest of the input
after the closing bracket.  The head skipped by the second pattern is
necessarily the `':'` of the regex, since a nonempty `dropWhile (· != ':')`
always starts with `':'`. -/
def parseLoc (s : List Char) : Option (List Char × Nat × List Char) :=
  let chrom := s.takeWhile (fun c => c != ':')
  match s.dropWhile (fun c => c != ':') with
  | [] => none
  | _ :: r2 =>
    let ds := r2.takeWhile Char.isDigit
    match r2.dropWhile Char.isDigit with
    | b :: r4 =>
      if chrom ≠ [] ∧ ds ≠ [] ∧ isBracketChar b then some (chrom, digitsToNat ds, r4)
      else none
    | [] => none

/-- First BND ALT regex, `^[ACGTN]+[\[\]]([^:]+):(\d+)[\[\]]$`. -/
def tryPat1 (s : List Char) : Option (List Char × Nat) :=
  let bases := s.takeWhile isBaseChar
  match s.dropWhile isBaseChar with
  | b :: r2 =>
    if bases ≠ [] ∧ isBracketChar b then
      match parseLoc r2 with
      | some (c, p, rest) => if rest = [] then some (c, p) else none
      | none => none
    else none
  | [] => none

/-- Second BND ALT regex, `^[\[\]]([^:]+):(\d+)[\[\]][ACGTN]+$`. -/
def tryPat2 (s : List Char) : Option (List Char × Nat) :=
  match s with
  | b :: r =>
    if isBracketChar b then
      match parseLoc r with
      | some (c, p, rest) => if rest ≠ [] ∧ rest.all isBaseChar then some (c, p) else none
      | none => none
    else none
  | [] => none

/-- Third BND ALT regex, `^[\[\]]([^:]+):(\d+)[\[\]]$`. -/
def tryPat3 (s : List Char) : Option (List Char × Nat) :=
  match s with
  | b :: r =>
    if isBracketChar b then
      match parseLoc r with
      | some (c, p, rest) => if rest = [] then some (c, p) else none
      | none => none
    else none
  | [] => none

/-- Embedding of `vcf2bed.parse_bnd_alt(alt_field)`: the three patterns are
tried in order; `(None, None)` is `none`. -/
def parse_bnd_alt (alt_field : List Char) : Option (List Char × Nat) :=
  match tryPat1 alt_field with
  | some r => some r
  | none =>
    match tryPat2 alt_field with
    | some r => some r
    | none => tryPat3 alt_field

/-- Decomposition denoted by the first mate-breakpoint grammar: a nonempty
leading base run, a bracket, `chrom:pos`, a closing bracket, end of string. -/
def pat1Decomp (s chrom : List Char) (pos : Nat) : Prop :=
  ∃ bases b1 ds b2,
    s = bases ++ b1 :: (chrom ++ ':' :: (ds ++ [b2])) ∧
    bases ≠ [] ∧ (∀ c ∈ bases, isBaseChar c) ∧ isBracketChar b1 ∧
    chrom ≠ [] ∧ (∀ c ∈ chrom, c ≠ ':') ∧
    ds ≠ [] ∧ (∀ c ∈ ds, c.isDigit) ∧ isBracketChar b2 ∧ pos = digitsToNat ds

/-- Decomposition denoted by the second mate-breakpoint grammar: a bracket,
`chrom:pos`, a closing bracket, a nonempty trailing base run. -/
def pat2Decomp (s chrom : List Char) (pos : Nat) : Prop :=
  ∃ b1 ds b2 bases,
    s = b1 :: (chrom ++ ':' :: (ds ++ b2 :: bases)) ∧
    isBracketChar b1 ∧ chrom ≠ [] ∧ (∀ c ∈ chrom, c ≠ ':') ∧
    ds ≠ [] ∧ (∀ c ∈ ds, c.isDigit) ∧ isBracketChar b2 ∧
    bases ≠ [] ∧ (∀ c ∈ bases, isBaseChar c) ∧ pos = digitsToNat ds

/-- Decomposition denoted by the third mate-breakpoint grammar: a bracket,
`chrom:pos`, a closing bracket, end of string (no base run on either side). -/
def pat3Decomp (s chrom : List Char) (pos : Nat) : Prop :=
  ∃ b1 ds b2,
    s = b1 :: (chrom ++ ':' :: (ds ++ [b2])) ∧
    isBracketChar b1 ∧ chrom ≠ [] ∧ (∀ c ∈ chrom, c ≠ ':') ∧
    ds ≠ [] ∧ (∀ c ∈ ds, c.isDigit) ∧ isBracketChar b2 ∧ pos = digitsToNat ds

/-- An ALT string matches one of the three mate-breakpoint grammars with
embedded token `(chrom, pos)`. -/
def bndGrammar (s chrom : List Char) (pos : Nat) : Prop :=
  pat1Decomp s chrom pos ∨ pat2Decomp s chrom pos ∨ pat3Decomp s chrom pos

/-- One BED line written by `vcf2bed.vcf_to_bed` (the ten tab-joined fields). -/
structure BedRow where
  chrom : List Char
  start : Int
  stop : Int
  varId : List Char
  ref : List Char
  alt : List Char
  qual : List Char
  filt : List Char
  info : List Char
  fmt : List Char
deriving DecidableEq, Repr

/-- Serialization of a `BedRow`, matching the `bed.write(f"...")` call. -/
def writeBedRow (r : BedRow) : List Char :=
  joinTab [r.chrom, intRepr r.start, intRepr r.stop, r.varId, r.ref, r.alt,
           r.qual, r.filt, r.info, r.fmt]

/-- Outcome of `vcf_to_bed`'s loop body on one input line.  `abort` is an
exception that escapes to the outermost handler, which exits the process. -/
inductive VcfLineOut where
  | skipHeader
  | skipFields
  | skipIns
  | emit (rows : List BedRow) (parsedBnd unresolvedBnd : Bool)
  | abort
deriving DecidableEq, Repr

/-- The write section of `vcf_to_bed`'s loop body (lines 170-194): the primary
row is always written; for a BND with parsing enabled, the parsed ALT mate is
written as a second row when the Python truthiness guard
`if bnd_chrom and bnd_pos:` passes (both groups nonempty/nonzero). -/
def emitRows (parseBnd : Bool) (svtype : Option (List Char)) (chrom : List Char)
    (pos endPos : Int) (varId ref alt qual filt info fmt : List Char) : VcfLineOut :=
  let primary : BedRow := ⟨chrom, pos - 1, endPos, varId, ref, alt, qual, filt, info, fmt⟩
  if svtype = some "BND".data ∧ parseBnd = true then
    match parse_bnd_alt alt with
    | some (bndChrom, bndPos) =>
      if bndChrom ≠ [] ∧ bndPos ≠ 0 then
        let bndStart : Int := if bndPos = 0 then 0 else (bndPos : Int) - 1
        let bndEnd : Int := if bndPos = 0 then 1 else (bndPos : Int)
        .emit [primary,
               ⟨bndChrom, bndStart, bndEnd, varId, ref, alt, qual, filt, info, fmt⟩]
          true false
      else .emit [primary] false true
    | none => .emit [primary] false true
  else .emit [primary] false false

/-- Embedding of `vcf_to_bed`'s loop body for one raw input line (lines
116-194 of `vcf2bed.py`): skip `#` headers, strip and tab-split, skip lines
with fewer than 9 fields, parse the position (an unparsable integer raises and
aborts the run), skip excluded INS records, resolve the end position from
END/SVLEN, and emit the row(s). -/
def vcfProcessLine (parseBnd includeIns : Bool) (line : List Char) : VcfLineOut :=
  if line.head? = some '#' then .skipHeader else
  let fields := splitTab (pyStrip line)
  if fields.length < 9 then .skipFields else
  let chrom := fields.getD 0 []
  match pyInt? (fields.getD 1 []) with
  | none => .abort
  | some pos =>
    let varId := fields.getD 2 []
    let ref := fields.getD 3 []
    let alt := fields.getD 4 []
    let qual := fields.getD 5 []
    let filt := fields.getD 6 []
    let info := fields.getD 7 []
    let fmt := if 9 ≤ fields.length then fields.getD 8 [] else []
    let svtype := extract_info_field info "SVTYPE".data
    if svtype = some "INS".data ∧ includeIns = false then .skipIns else
    match extract_info_field info "END".data with
    | some endStr =>
      match pyInt? endStr with
      | none => .abort
      | some endPos => emitRows parseBnd svtype chrom pos endPos varId ref alt qual filt info fmt
    | none =>
      match extract_info_field info "SVLEN".data with
      | some svlenStr =>
        match pyInt? svlenStr with
        | none => .abort
        | some svlen =>
          emitRows parseBnd svtype chrom pos (if svlen < 0 then pos + |svlen| else pos)
            varId ref alt qual filt info fmt
      | none => emitRows parseBnd svtype chrom pos pos varId ref alt qual filt info fmt

/-- The whole conversion loop over the input lines: collects the written rows,
and returns `none` when a line aborted the run (lines after it are never
processed). -/
def vcfRun (parseBnd includeIns : Bool) : List (List Char) → Option (List BedRow)
  | [] => some []
  | l :: rest =>
    match vcfProcessLine parseBnd includeIns l with
    | .abort => none
    | .emit rows _ _ => (vcfRun parseBnd includeIns rest).map (rows ++ ·)
    | _ => vcfRun parseBnd includeIns rest

/-- The end-position priority rule as the program realizes it (`vcf2bed.py`
lines 147-164): END's value verbatim, else derived from SVLEN, else `pos` —
where presence and value of each key are what the code's leftmost substring
extractor reports (so a longer key such as `CIEND` can satisfy the END case,
unlike the spec's key-to-value mapping; see the C1 counterexample).  An
unparsable value resolves to `none` (the run aborts). -/
def extractorResolvedEnd (info : List Char) (pos : Int) : Option Int :=
  match extract_info_field info "END".data with
  | some e => pyInt? e
  | none =>
    match extract_info_field info "SVLEN".data with
    | some s =>
      match pyInt? s with
      | some sv => some (if sv < 0 then pos + |sv| else pos)
      | none => none
    | none => some pos

/-- Embedding of `bed_processor.extract_svtype(info_field)`:
`re.search(r'SVTYPE=([^;]+)', info_field)`. -/
def extract_svtype (info_field : List Char) : Option (List Char) :=
  searchKV "SVTYPE".data info_field

/-- Embedding of `bed_processor.process_deletion`: one output line with the
start extended left by the flank (clamped at `min_coord`) and the end extended
right, all other fields verbatim. -/
def process_deletion (start stop : Int) (fields : List (List Char))
    (flankSize minCoord : Int) : List (List Char) :=
  let newStart := max minCoord (start - flankSize)
  let newEnd := stop + flankSize
  [joinTab ((fields.set 1 (intRepr newStart)).set 2 (intRepr newEnd))]

/-- Embedding of `bed_processor.process_duplication_inversion`: two output
lines, the first centered on the start breakpoint and the second on the end
breakpoint, all other fields verbatim. -/
def process_duplication_inversion (start stop : Int) (fields : List (List Char))
    (flankSize minCoord : Int) : List (List Char) :=
  let row1 := joinTab ((fields.set 1 (intRepr (max minCoord (start - flankSize)))).set 2
    (intRepr (start + flankSize)))
  let row2 := joinTab ((fields.set 1 (intRepr (max minCoord (stop - flankSize)))).set 2
    (intRepr (stop + flankSize)))
  [row1, row2]

/-- Outcome of `bed_processor.process_bed_line`: the returned list of output
lines, or a raised `ValueError`. -/
inductive BedLineOut where
  | ok (lines : List (List Char))
  | err
deriving DecidableEq, Repr

/-- The info-field search of `process_bed_line` (lines 227-239): column 9,
else column 8, else the first of the trailing columns (from index 7 on)
containing the literal `SVTYPE=`. -/
def findInfoField (fields : List (List Char)) : Option (List Char) :=
  if 8 < fields.length ∧ hasSubstr "SVTYPE=".data (fields.getD 8 []) then some (fields.getD 8 [])
  else if 7 < fields.length ∧ hasSubstr "SVTYPE=".data (fields.getD 7 []) then some (fields.getD 7 [])
  else (fields.drop 7).find? (fun f => hasSubstr "SVTYPE=".data f)

/-- Embedding of `bed_processor.process_bed_line(line, flank_size, min_coord,
line_num, skip_invalid)`: blank/comment handling, the 8-column minimum, the
coordinate parse (a `ValueError` is caught and turned into skip-or-raise), the
info-field search, and the SVTYPE dispatch; every fall-through branch returns
the stripped line unchanged. -/
def process_bed_line (line : List Char) (flankSize minCoord : Int)
    (skipInvalid : Bool) : BedLineOut :=
  let l := pyStrip line
  if l = [] then .ok []
  else if l.head? = some '#' then .ok [l]
  else
  let fields := splitTab l
  if fields.length < 8 then (if skipInvalid then .ok [] else .err)
  else
    match pyInt? (fields.getD 1 []), pyInt? (fields.getD 2 []) with
    | some start, some stop =>
      match findInfoField fields with
      | none => .ok [l]
      | some info =>
        match extract_svtype info with
        | none => .ok [l]
        | some svtype =>
          if svtype = "DEL".data then
            .ok (process_deletion start stop fields flankSize minCoord)
          else if svtype = "DUP".data ∨ svtype = "INV".data then
            .ok (process_duplication_inversion start stop fields flankSize minCoord)
          else .ok [l]
    | _, _ => if skipInvalid then .ok [] else .err

/-- Embedding of `squash_intersect.process_bed_line(line, delimiter,
line_num)`: returns the SnifflesID (column 4) and the element slice (columns
11-19) of a valid line, `none` for blanks, comments and short lines. -/
def squashProcessLine (delim : Char) (line : List Char) :
    Option (List Char × List (List Char)) :=
  let l := pyStrip line
  if l = [] then none
  else if l.head? = some '#' then none
  else
  let columns := l.splitOn delim
  if columns.length < 19 then none
  else some (columns.getD 3 [], (columns.drop 10).take 9)

/-- One `variants[sniffles_id].append(elements)` step on the insertion-ordered
association list that models the `defaultdict(list)`. -/
def addEntry (acc : List (List Char × List (List (List Char))))
    (k : List Char) (v : List (List Char)) : List (List Char × List (List (List Char))) :=
  match acc with
  | [] => [(k, [v])]
  | (k₁, vs) :: rest =>
    if k₁ = k then (k₁, vs ++ [v]) :: rest else (k₁, vs) :: addEntry rest k v

/-- One loop iteration of `squash_variants`: append the line's elements under
its SnifflesID, or leave the grouping unchanged for a skipped line. -/
def squashStep (delim : Char) (acc : List (List Char × List (List (List Char))))
    (l : List Char) : List (List Char × List (List (List Char))) :=
  match squashProcessLine delim l with
  | some (k, v) => addEntry acc k v
  | none => acc

/-- Embedding of `squash_intersect.squash_variants` (grouping only; header
skipping is outside the claims): group valid lines by SnifflesID, preserving
the encounter order of rows within each key. -/
def squash_variants (delim : Char) (lines : List (List Char)) :
    List (List Char × List (List (List Char))) :=
  lines.foldl (squashStep delim) []

/-- The tuples recorded for key `k`, read back from the grouping (the value
of the first — and, by construction, only — entry with that key). -/
def tuplesFor (m : List (List Char × List (List (List Char)))) (k : List Char) :
    List (List (List Char)) :=
  match m with
  | [] => []
  | (k₁, vs) :: rest => if k₁ = k then vs else tuplesFor rest k

/-- The Elements column built by `squash_intersect.format_output_line`:
fields of one tuple joined with commas, tuples joined with pipes. -/
def formatElements (elementLists : List (List (List Char))) : List Char :=
  List.intercalate ['|'] (elementLists.map (List.intercalate [',']))

/-- Embedding of `squash_intersect.format_output_line(sniffles_id,
element_lists)`. -/
def format_output_line (snifflesId : List Char)
    (elementLists : List (List (List Char))) : List Char :=
  snifflesId ++ '\t' :: formatElements elementLists

/-- The round-trip read-back of an Elements column described by the spec:
split on the row delimiter (pipe), then each piece on the field delimiter
(comma). -/
def splitElements (s : List Char) : List (List (List Char)) :=
  (s.splitOn '|').map (fun r => r.splitOn ',')

/-- A successful match of the regex `NAME=([^;]+)` starting at offset `k` of
`info`: the literal `NAME=` is a prefix of the suffix at `k`, followed by at
least one non-semicolon character. -/
def goodMatchAt (name info : List Char) (k : Nat) : Prop :=
  (name ++ ['=']).isPrefixOf (info.drop k) = true ∧
  ((info.drop k).drop (name.length + 1)).takeWhile (fun x => x != ';') ≠ []

instance (name info : List Char) (k : Nat) : Decidable (goodMatchAt name info k) :=
  inferInstanceAs (Decidable ((name ++ ['=']).isPrefixOf (info.drop k) = true ∧
    ((info.drop k).drop (name.length + 1)).takeWhile (fun x => x != ';') ≠ []))

/-! ### Helper lemmas about the string primitives -/

theorem takeWhile_middle (p : Char → Bool) (l₁ : List Char) (x : Char) (l₂ : List Char)
    (h₁ : ∀ c ∈ l₁, p c = true) (hx : p x = false) :
    (l₁ ++ x :: l₂).takeWhile p = l₁ := by
  induction l₁ with
  | nil => simp [List.takeWhile_cons, hx]
  | cons a t ih =>
    have ha : p a = true := h₁ a (by simp)
    simp only [List.cons_append, List.takeWhile_cons, ha, if_true]
    rw [ih (fun c hc => h₁ c (by simp [hc]))]

theorem dropWhile_middle (p : Char → Bool) (l₁ : List Char) (x : Char) (l₂ : List Char)
    (h₁ : ∀ c ∈ l₁, p c = true) (hx : p x = false) :
    (l₁ ++ x :: l₂).dropWhile p = x :: l₂ := by
  induction l₁ with
  | nil => simp [List.dropWhile_cons, hx]
  | cons a t ih =>
    have ha : p a = true := h₁ a (by simp)
    simp only [List.cons_append, List.dropWhile_cons, ha, if_true]
    exact ih (fun c hc => h₁ c (by simp [hc]))

theorem bracket_not_base {c : Char} (h : isBracketChar c = true) : isBaseChar c = false := by
  simp only [isBracketChar, Bool.or_eq_true, beq_iff_eq] at h
  rcases h with h | h <;> subst h <;> decide

theorem bracket_not_digit {c : Char} (h : isBracketChar c = true) : c.isDigit = false := by
  simp only [isBracketChar, Bool.or_eq_true, beq_iff_eq] at h
  rcases h with h | h <;> subst h <;> decide

theorem bracket_not_colon {c : Char} (h : isBracketChar c = true) : (c != ':') = true := by
  simp only [isBracketChar, Bool.or_eq_true, beq_iff_eq] at h
  rcases h with h | h <;> subst h <;> decide

theorem digitChar_isDigit : ∀ d, (digitChar d).isDigit = true
  | 0 | 1 | 2 | 3 | 4 | 5 | 6 | 7 | 8 => by decide
  | _ + 9 => by show ('9').isDigit = true; decide

theorem mem_natReprAux {c : Char} : ∀ {fuel n : Nat}, c ∈ natReprAux fuel n → c.isDigit = true := by
  intro fuel
  induction fuel with
  | zero => intro n h; simp [natReprAux] at h
  | succ f ih =>
    intro n h
    unfold natReprAux at h
    split at h
    · simp at h; subst h; exact digitChar_isDigit n
    · rcases List.mem_append.mp h with h | h
      · exact ih h
      · simp at h; subst h; exact digitChar_isDigit _

theorem mem_intRepr {c : Char} {n : Int} (h : c ∈ intRepr n) :
    c = '-' ∨ c.isDigit = true := by
  unfold intRepr at h
  split at h
  · rcases List.mem_cons.mp h with h | h
    · exact Or.inl h
    · exact Or.inr (mem_natReprAux h)
  · exact Or.inr (mem_natReprAux h)

theorem tab_not_mem_intRepr (n : Int) : '\t' ∉ intRepr n := by
  intro h
  rcases mem_intRepr h with h | h
  · exact absurd h (by decide)
  · exact absurd h (by decide)

/-- Splitting a tab-join recovers the fields, when the fields are nonempty and
tab-free. -/
theorem splitTab_joinTab (fs : List (List Char)) (hne : fs ≠ [])
    (htab : ∀ f ∈ fs, '\t' ∉ f) : splitTab (joinTab fs) = fs :=
  List.splitOn_intercalate fs '\t' htab hne

theorem head_dropWhile_false {p : Char → Bool} {l r : List Char} {c : Char}
    (h : l.dropWhile p = c :: r) : p c = false := by
  induction l with
  | nil => simp at h
  | cons a t ih =>
    rw [List.dropWhile_cons] at h
    by_cases hp : p a = true
    · rw [if_pos hp] at h; exact ih h
    · rw [if_neg hp] at h
      cases h
      simpa using hp

/-! ### Correctness of the BND ALT parser against the three grammars -/

theorem parseLoc_complete {chrom ds rest : List Char} {b : Char}
    (hc : chrom ≠ []) (hcc : ∀ c ∈ chrom, c ≠ ':') (hd : ds ≠ [])
    (hdd : ∀ c ∈ ds, c.isDigit = true) (hb : isBracketChar b = true) :
    parseLoc (chrom ++ ':' :: (ds ++ b :: rest)) = some (chrom, digitsToNat ds, rest) := by
  have hcb : ∀ c ∈ chrom, ((fun c => c != ':') c) = true := fun c h => by simpa using hcc c h
  have h1 := takeWhile_middle (fun c => c != ':') chrom ':' (ds ++ b :: rest) hcb (by decide)
  have h2 := dropWhile_middle (fun c => c != ':') chrom ':' (ds ++ b :: rest) hcb (by decide)
  have h3 := takeWhile_middle Char.isDigit ds b rest hdd (bracket_not_digit hb)
  have h4 := dropWhile_middle Char.isDigit ds b rest hdd (bracket_not_digit hb)
  unfold parseLoc
  simp only [h1, h2, h3, h4]
  simp [hc, hd, hb]

theorem parseLoc_sound {s chrom : List Char} {p : Nat} {rest : List Char}
    (h : parseLoc s = some (chrom, p, rest)) :
    ∃ ds b, s = chrom ++ ':' :: (ds ++ b :: rest) ∧ chrom ≠ [] ∧ (∀ c ∈ chrom, c ≠ ':') ∧
      ds ≠ [] ∧ (∀ c ∈ ds, c.isDigit = true) ∧ isBracketChar b = true ∧ p = digitsToNat ds := by
  unfold parseLoc at h
  split at h
  · exact absurd h (by simp)
  · rename_i c0 r2 heq
    dsimp only at h
    split at h
    · rename_i b r4 heq2
      split at h
      · rename_i hcond
        obtain ⟨hc, hd, hb⟩ := hcond
        obtain ⟨e1, e2, e3⟩ : List.takeWhile (fun c => c != ':') s = chrom ∧
            digitsToNat (List.takeWhile Char.isDigit r2) = p ∧ r4 = rest := by
          injection h with h'
          exact ⟨congrArg Prod.fst h', congrArg (fun q => q.2.1) h', congrArg (fun q => q.2.2) h'⟩
        have hc0 : c0 = ':' := by
          have := head_dropWhile_false heq
          simpa using this
        refine ⟨List.takeWhile Char.isDigit r2, b, ?_, ?_, ?_, ?_, ?_, hb, e2.symm⟩
        · have hs : s = List.takeWhile (fun c => c != ':') s ++ (c0 :: r2) := by
            rw [← heq, List.takeWhile_append_dropWhile]
          have hr2 : r2 = List.takeWhile Char.isDigit r2 ++ (b :: r4) := by
            rw [← heq2, List.takeWhile_append_dropWhile]
          have h5 : r2 = List.takeWhile Char.isDigit r2 ++ (b :: rest) := by
            rw [← e3]; exact hr2
          conv_lhs => rw [hs]
          rw [e1, hc0]
          exact congrArg (fun t => chrom ++ ':' :: t) h5
        · rwa [e1] at hc
        · intro c hcmem
          rw [← e1] at hcmem
          simpa using List.mem_takeWhile_imp hcmem
        · exact hd
        · intro c hcmem
          exact List.mem_takeWhile_imp hcmem
      · exact absurd h (by simp)
    · exact absurd h (by simp)



theorem tryPat1_complete {s c : List Char} {p : Nat} (h : pat1Decomp s c p) :
    tryPat1 s = some (c, p) := by
  obtain ⟨bases, b1, ds, b2, hs, hb0, hball, hb1, hc, hcc, hd, hdd, hb2, hp⟩ := h
  have htw : s.takeWhile isBaseChar = bases := by
    rw [hs]; exact takeWhile_middle _ _ _ _ hball (bracket_not_base hb1)
  have hdw : s.dropWhile isBaseChar = b1 :: (c ++ ':' :: (ds ++ [b2])) := by
    rw [hs]; exact dropWhile_middle _ _ _ _ hball (bracket_not_base hb1)
  have hloc : parseLoc (c ++ ':' :: (ds ++ [b2])) = some (c, digitsToNat ds, []) :=
    parseLoc_complete hc hcc hd hdd hb2
  unfold tryPat1
  rw [htw, hdw]
  simp [hloc, hb0, hb1, hp]

theorem tryPat1_sound {s c : List Char} {p : Nat} (h : tryPat1 s = some (c, p)) :
    pat1Decomp s c p := by
  unfold tryPat1 at h
  split at h
  · rename_i b r2 heq
    dsimp only at h
    split at h
    · rename_i hcond
      obtain ⟨hb0, hb1⟩ := hcond
      split at h
      · rename_i q cq pq restq heq2
        split at h
        · rename_i hrest
          obtain ⟨ec, ep⟩ : cq = c ∧ pq = p := by
            constructor <;> injection h with h' <;> cases h' <;> rfl
          subst ec ep hrest
          obtain ⟨ds, b2, hr2, hcne, hcc, hdne, hdd, hb2, hpd⟩ := parseLoc_sound heq2
          refine ⟨s.takeWhile isBaseChar, b, ds, b2, ?_, hb0, ?_, hb1, hcne, hcc, hdne, hdd, hb2, hpd⟩
          · conv_lhs => rw [← List.takeWhile_append_dropWhile isBaseChar s]
            rw [heq, hr2]
          · intro x hx
            exact List.mem_takeWhile_imp hx
        · exact absurd h (by simp)
      · exact absurd h (by simp)
    · exact absurd h (by simp)
  · exact absurd h (by simp)



theorem tryPat2_complete {s c : List Char} {p : Nat} (h : pat2Decomp s c p) :
    tryPat2 s = some (c, p) := by
  obtain ⟨b1, ds, b2, bases, hs, hb1, hc, hcc, hd, hdd, hb2, hb0, hball, hp⟩ := h
  have hloc : parseLoc (c ++ ':' :: (ds ++ b2 :: bases)) = some (c, digitsToNat ds, bases) :=
    parseLoc_complete hc hcc hd hdd hb2
  rw [hs]
  unfold tryPat2
  simp [hloc, hb1, hb0, List.all_eq_true.mpr hball, hp]

theorem tryPat2_sound {s c : List Char} {p : Nat} (h : tryPat2 s = some (c, p)) :
    pat2Decomp s c p := by
  unfold tryPat2 at h
  split at h
  · rename_i b r
    split at h
    · rename_i hb1
      split at h
      · rename_i q cq pq restq heq2
        split at h
        · rename_i hcond
          obtain ⟨hr0, hrall⟩ := hcond
          obtain ⟨ec, ep⟩ : cq = c ∧ pq = p := by
            constructor <;> injection h with h' <;> cases h' <;> rfl
          subst ec ep
          obtain ⟨ds, b2, hr, hcne, hcc, hdne, hdd, hb2, hpd⟩ := parseLoc_sound heq2
          exact ⟨b, ds, b2, restq, by rw [hr], hb1, hcne, hcc, hdne, hdd, hb2, hr0,
            List.all_eq_true.mp hrall, hpd⟩
        · exact absurd h (by simp)
      · exact absurd h (by simp)
    · exact absurd h (by simp)
  · exact absurd h (by simp)

theorem tryPat3_complete {s c : List Char} {p : Nat} (h : pat3Decomp s c p) :
    tryPat3 s = some (c, p) := by
  obtain ⟨b1, ds, b2, hs, hb1, hc, hcc, hd, hdd, hb2, hp⟩ := h
  have hloc : parseLoc (c ++ ':' :: (ds ++ [b2])) = some (c, digitsToNat ds, []) :=
    parseLoc_complete hc hcc hd hdd hb2
  rw [hs]
  unfold tryPat3
  simp [hloc, hb1, hp]

theorem tryPat3_sound {s c : List Char} {p : Nat} (h : tryPat3 s = some (c, p)) :
    pat3Decomp s c p := by
  unfold tryPat3 at h
  split at h
  · rename_i b r
    split at h
    · rename_i hb1
      split at h
      · rename_i q cq pq restq heq2
        split at h
        · rename_i hrest
          obtain ⟨ec, ep⟩ : cq = c ∧ pq = p := by
            constructor <;> injection h with h' <;> cases h' <;> rfl
          subst ec ep hrest
          obtain ⟨ds, b2, hr, hcne, hcc, hdne, hdd, hb2, hpd⟩ := parseLoc_sound heq2
          exact ⟨b, ds, b2, by rw [hr], hb1, hcne, hcc, hdne, hdd, hb2, hpd⟩
        · exact absurd h (by simp)
      · exact absurd h (by simp)
    · exact absurd h (by simp)
  · exact absurd h (by simp)



theorem pat1_getLast {s c : List Char} {p : Nat} (h : pat1Decomp s c p) :
    ∃ b, s.getLast? = some b ∧ isBracketChar b = true := by
  obtain ⟨bases, b1, ds, b2, hs, _, _, _, _, _, _, _, hb2, _⟩ := h
  refine ⟨b2, ?_, hb2⟩
  rw [hs, show bases ++ b1 :: (c ++ ':' :: (ds ++ [b2])) =
    (bases ++ b1 :: c ++ ':' :: ds) ++ [b2] by simp [List.cons_append, List.append_assoc]]
  exact List.getLast?_concat _

theorem pat3_getLast {s c : List Char} {p : Nat} (h : pat3Decomp s c p) :
    ∃ b, s.getLast? = some b ∧ isBracketChar b = true := by
  obtain ⟨b1, ds, b2, hs, _, _, _, _, _, hb2, _⟩ := h
  refine ⟨b2, ?_, hb2⟩
  rw [hs, show b1 :: (c ++ ':' :: (ds ++ [b2])) =
    (b1 :: c ++ ':' :: ds) ++ [b2] by simp [List.cons_append, List.append_assoc]]
  exact List.getLast?_concat _

theorem pat2_getLast {s c : List Char} {p : Nat} (h : pat2Decomp s c p) :
    ∃ b, s.getLast? = some b ∧ isBaseChar b = true := by
  obtain ⟨b1, ds, b2, bases, hs, _, _, _, _, _, _, hb0, hball, _⟩ := h
  obtain ⟨L, t, hL⟩ := (List.eq_nil_or_concat bases).resolve_left hb0
  refine ⟨t, ?_, hball t (by rw [hL]; simp)⟩
  rw [hs, hL, show b1 :: (c ++ ':' :: (ds ++ b2 :: L.concat t)) =
    (b1 :: c ++ ':' :: ds ++ b2 :: L) ++ [t] by
      simp [List.concat_eq_append, List.cons_append, List.append_assoc]]
  exact List.getLast?_concat _

theorem pat1_head {s c : List Char} {p : Nat} (h : pat1Decomp s c p) :
    ∃ b, s.head? = some b ∧ isBaseChar b = true := by
  obtain ⟨bases, b1, ds, b2, hs, hb0, hball, _⟩ := h
  obtain ⟨x, xs, hx⟩ := List.exists_cons_of_ne_nil hb0
  exact ⟨x, by rw [hs, hx]; rfl, hball x (by rw [hx]; simp)⟩

theorem pat3_head {s c : List Char} {p : Nat} (h : pat3Decomp s c p) :
    ∃ b, s.head? = some b ∧ isBracketChar b = true := by
  obtain ⟨b1, ds, b2, hs, hb1, _⟩ := h
  exact ⟨b1, by rw [hs]; rfl, hb1⟩

theorem pat1_pat2_disjoint {s c c₂ : List Char} {p p₂ : Nat}
    (h1 : pat1Decomp s c p) (h2 : pat2Decomp s c₂ p₂) : False := by
  obtain ⟨b, hb, hbr⟩ := pat1_getLast h1
  obtain ⟨t, ht, hba⟩ := pat2_getLast h2
  rw [hb] at ht
  cases ht
  rw [bracket_not_base hbr] at hba
  exact Bool.false_ne_true hba

theorem pat2_pat3_disjoint {s c c₂ : List Char} {p p₂ : Nat}
    (h2 : pat2Decomp s c p) (h3 : pat3Decomp s c₂ p₂) : False := by
  obtain ⟨t, ht, hba⟩ := pat2_getLast h2
  obtain ⟨b, hb, hbr⟩ := pat3_getLast h3
  rw [hb] at ht
  cases ht
  rw [bracket_not_base hbr] at hba
  exact Bool.false_ne_true hba

theorem pat1_pat3_disjoint {s c c₂ : List Char} {p p₂ : Nat}
    (h1 : pat1Decomp s c p) (h3 : pat3Decomp s c₂ p₂) : False := by
  obtain ⟨x, hx, hba⟩ := pat1_head h1
  obtain ⟨b, hb, hbr⟩ := pat3_head h3
  rw [hb] at hx
  cases hx
  rw [bracket_not_base hbr] at hba
  exact Bool.false_ne_true hba

theorem parse_bnd_sound {s c : List Char} {p : Nat} (h : bndGrammar s c p) :
    parse_bnd_alt s = some (c, p) := by
  rcases h with h1 | h2 | h3
  · unfold parse_bnd_alt
    rw [tryPat1_complete h1]
  · have e1 : tryPat1 s = none := by
      cases heq : tryPat1 s with
      | none => rfl
      | some r =>
        obtain ⟨cq, pq⟩ := r
        exact absurd (tryPat1_sound heq) (fun hp1 => pat1_pat2_disjoint hp1 h2)
    unfold parse_bnd_alt
    rw [e1, tryPat2_complete h2]
  · have e1 : tryPat1 s = none := by
      cases heq : tryPat1 s with
      | none => rfl
      | some r =>
        obtain ⟨cq, pq⟩ := r
        exact absurd (tryPat1_sound heq) (fun hp1 => pat1_pat3_disjoint hp1 h3)
    have e2 : tryPat2 s = none := by
      cases heq : tryPat2 s with
      | none => rfl
      | some r =>
        obtain ⟨cq, pq⟩ := r
        exact absurd (tryPat2_sound heq) (fun hp2 => pat2_pat3_disjoint hp2 h3)
    unfold parse_bnd_alt
    rw [e1, e2, tryPat3_complete h3]

theorem parse_bnd_complete {s c : List Char} {p : Nat} (h : parse_bnd_alt s = some (c, p)) :
    bndGrammar s c p := by
  unfold parse_bnd_alt at h
  split at h
  · rename_i r heq
    cases h
    exact Or.inl (tryPat1_sound heq)
  · split at h
    · rename_i r heq
      cases h
      exact Or.inr (Or.inl (tryPat2_sound heq))
    · exact Or.inr (Or.inr (tryPat3_sound h))



theorem searchKV_leftmost (name : List Char) :
    ∀ (k : Nat) (info : List Char), goodMatchAt name info k →
      (∀ j, j < k → ¬ goodMatchAt name info j) →
      searchKV name info =
        some (((info.drop k).drop (name.length + 1)).takeWhile (fun x => x != ';')) := by
  intro k
  induction k with
  | zero =>
    intro info hg _
    obtain ⟨h1, h2⟩ := hg
    rw [List.drop_zero] at h1 h2
    match info with
    | [] =>
      exfalso
      simp [List.isPrefixOf_iff_prefix] at h1
    | c :: rest =>
      rw [List.drop_zero]
      unfold searchKV
      dsimp only
      rw [if_pos ⟨h1, h2⟩]
  | succ k ih =>
    intro info hg hnot
    match info with
    | [] =>
      exfalso
      obtain ⟨h1, _⟩ := hg
      simp [List.isPrefixOf_iff_prefix] at h1
    | c :: rest =>
      have h0 : ¬ goodMatchAt name (c :: rest) 0 := hnot 0 (Nat.succ_pos k)
      have hcond : ¬ ((name ++ ['=']).isPrefixOf (c :: rest) = true ∧
          ((c :: rest).drop (name.length + 1)).takeWhile (fun x => x != ';') ≠ []) := by
        intro hc
        exact h0 ⟨by simpa using hc.1, by simpa using hc.2⟩
      have e : (c :: rest).drop (k + 1) = rest.drop k := List.drop_succ_cons
      rw [e]
      unfold searchKV
      dsimp only
      rw [if_neg hcond]
      exact ih rest (by simpa [goodMatchAt, List.drop_succ_cons] using hg) (fun j hj => by
        have := hnot (j + 1) (Nat.succ_lt_succ hj)
        intro hgj
        exact this (by simpa [goodMatchAt, List.drop_succ_cons] using hgj))



theorem emitRows_shape (pb : Bool) (svtype : Option (List Char)) (chrom : List Char)
    (pos endPos : Int) (varId ref alt qual filt info fmt : List Char) :
    ∃ rest pf uf, emitRows pb svtype chrom pos endPos varId ref alt qual filt info fmt =
      .emit (⟨chrom, pos - 1, endPos, varId, ref, alt, qual, filt, info, fmt⟩ :: rest) pf uf := by
  simp only [emitRows]
  split
  · split
    · split
      · exact ⟨_, true, false, rfl⟩
      · exact ⟨[], false, true, rfl⟩
    · exact ⟨[], false, true, rfl⟩
  · exact ⟨[], false, false, rfl⟩

theorem emitRows_ne_abort (pb : Bool) (svtype : Option (List Char)) (chrom : List Char)
    (pos endPos : Int) (varId ref alt qual filt info fmt : List Char) :
    emitRows pb svtype chrom pos endPos varId ref alt qual filt info fmt ≠ .abort := by
  obtain ⟨rest, pf, uf, hsh⟩ := emitRows_shape pb svtype chrom pos endPos varId ref alt qual filt info fmt
  rw [hsh]
  simp

theorem emitRows_unresolved (pb : Bool) (svtype : Option (List Char)) (chrom : List Char)
    (pos endPos : Int) (varId ref alt qual filt info fmt : List Char)
    (hsv : svtype = some "BND".data) (hpb : pb = true) (halt : parse_bnd_alt alt = none) :
    emitRows pb svtype chrom pos endPos varId ref alt qual filt info fmt =
      .emit [⟨chrom, pos - 1, endPos, varId, ref, alt, qual, filt, info, fmt⟩] false true := by
  unfold emitRows
  rw [if_pos ⟨hsv, hpb⟩, halt]

/-- C1 (amended).  Every data line that `vcf_to_bed` converts emits a primary
interval whose start is `pos - 1` and whose end follows the END-verbatim /
SVLEN-derived / pos-fallback priority order, with the presence and value of
END and SVLEN given by the leftmost substring extractor rather than by
genuine key membership in the INFO field. -/
theorem c1_end_resolution_amended (parseBnd includeIns : Bool) (line : List Char)
    (rows : List BedRow) (pf uf : Bool)
    (h : vcfProcessLine parseBnd includeIns line = .emit rows pf uf) :
    ∃ pos r rest,
      pyInt? ((splitTab (pyStrip line)).getD 1 []) = some pos ∧
      rows = r :: rest ∧ r.start = pos - 1 ∧
      extractorResolvedEnd ((splitTab (pyStrip line)).getD 7 []) pos = some r.stop := by
  unfold vcfProcessLine at h
  split at h
  · exact absurd h (by simp)
  · dsimp only at h
    split at h
    · exact absurd h (by simp)
    · split at h
      · exact absurd h (by simp)
      · rename_i pos hpos
        split at h
        · exact absurd h (by simp)
        · split at h
          · rename_i endStr hend
            split at h
            · exact absurd h (by simp)
            · rename_i endPos hendPos
              obtain ⟨rest, pf', uf', hsh⟩ := emitRows_shape parseBnd _ _ pos endPos _ _ _ _ _ _ _
              rw [hsh] at h
              injection h with h1 h2 h3
              refine ⟨pos, _, rest, hpos, h1.symm, rfl, ?_⟩
              simp only [extractorResolvedEnd, hend]
              exact hendPos
          · rename_i hend
            split at h
            · rename_i svlenStr hsvlen
              split at h
              · exact absurd h (by simp)
              · rename_i svlen hsvlenv
                obtain ⟨rest, pf', uf', hsh⟩ := emitRows_shape parseBnd _ _ pos
                  (if svlen < 0 then pos + |svlen| else pos) _ _ _ _ _ _ _
                rw [hsh] at h
                injection h with h1 h2 h3
                refine ⟨pos, _, rest, hpos, h1.symm, rfl, ?_⟩
                simp only [extractorResolvedEnd, hend, hsvlen, hsvlenv]
            · rename_i hsvlen
              obtain ⟨rest, pf', uf', hsh⟩ := emitRows_shape parseBnd _ _ pos pos _ _ _ _ _ _ _
              rw [hsh] at h
              injection h with h1 h2 h3
              refine ⟨pos, _, rest, hpos, h1.symm, rfl, ?_⟩
              simp only [extractorResolvedEnd, hend, hsvlen]



/-- C2.  The BND ALT resolver is sound and complete for the three
mate-breakpoint grammars: a matching ALT yields exactly the embedded
`(chrom, pos)` token, a non-matching ALT yields `none` (unresolved) rather
than an error, the spec's example resolves as stated, and an unresolved BND
never aborts the conversion — the caller emits the primary row and counts the
record through the unresolved flag. -/
theorem c2_bnd_resolver :
    (∀ (s c : List Char) (p : Nat), bndGrammar s c p → parse_bnd_alt s = some (c, p)) ∧
    (∀ s : List Char, (∀ (c : List Char) (p : Nat), ¬ bndGrammar s c p) →
      parse_bnd_alt s = none) ∧
    parse_bnd_alt "N]chr2:5000]".data = some ("chr2".data, 5000) ∧
    (∀ (pb : Bool) (svtype : Option (List Char)) (chrom : List Char) (pos endPos : Int)
       (varId ref alt qual filt info fmt : List Char),
      svtype = some "BND".data → parse_bnd_alt alt = none →
      emitRows pb svtype chrom pos endPos varId ref alt qual filt info fmt =
        .emit [⟨chrom, pos - 1, endPos, varId, ref, alt, qual, filt, info, fmt⟩]
          false true ∨
      emitRows pb svtype chrom pos endPos varId ref alt qual filt info fmt =
        .emit [⟨chrom, pos - 1, endPos, varId, ref, alt, qual, filt, info, fmt⟩]
          false false) := by
  refine ⟨fun s c p h => parse_bnd_sound h, ?_, by decide, ?_⟩
  · intro s hnone
    cases heq : parse_bnd_alt s with
    | none => rfl
    | some r =>
      obtain ⟨c, p⟩ := r
      exact absurd (parse_bnd_complete heq) (hnone c p)
  · intro pb svtype chrom pos endPos varId ref alt qual filt info fmt hsv halt
    cases hpb : pb with
    | true => exact Or.inl (emitRows_unresolved _ _ _ _ _ _ _ _ _ _ _ _ hsv rfl halt)
    | false =>
      refine Or.inr ?_
      unfold emitRows
      rw [if_neg]
      intro hc
      exact Bool.false_ne_true hc.2


/-- Witness for C2: the resolver applied to the spec's example ALT, with the
grammar hypothesis discharged by the explicit decomposition. -/
theorem c2_bnd_resolver_witness :
    parse_bnd_alt "N]chr2:5000]".data = some ("chr2".data, 5000) :=
  c2_bnd_resolver.1 _ _ _ (Or.inl ⟨"N".data, ']', "5000".data, ']', by decide⟩)

/-- C6.  Evaluating the converter at a BND whose ALT resolves to mate position
0: the resolver does return `("chr2", 0)`, but the truthiness guard
`if bnd_chrom and bnd_pos:` is false at position 0, so no mate interval is
written and the record is counted as unresolved — the dedicated
position-0 branch of the source is unreachable. -/
theorem c6_telomeric_mate_bug :
    parse_bnd_alt "N]chr2:0]".data = some ("chr2".data, 0) ∧
    vcfProcessLine true false "chr1\t100\tv1\tN\tN]chr2:0]\t.\t.\tSVTYPE=BND\tGT".data =
      .emit [⟨"chr1".data, 99, 100, "v1".data, "N".data, "N]chr2:0]".data, ".".data, ".".data,
        "SVTYPE=BND".data, "GT".data⟩] false true := by decide

/-- C10.  The INFO extractor matches `END=` as a bare substring: in an INFO
string with no standalone `END` key (no `;`-separated piece starts with
`END=`) but with `CIEND=100`, extracting `END` yields `100`, and the emitted
interval end is `100` instead of the SVLEN fallback `pos + 50 = 150`. -/
theorem c10_substring_end_match :
    extract_info_field "SVTYPE=DUP;CIEND=100;SVLEN=-50".data "END".data = some "100".data ∧
    ("SVTYPE=DUP;CIEND=100;SVLEN=-50".data.splitOn ';').all
      (fun piece => !("END=".data.isPrefixOf piece)) = true ∧
    vcfProcessLine true false
        "chr1\t100\tv1\tA\tT\t.\t.\tSVTYPE=DUP;CIEND=100;SVLEN=-50\tGT".data =
      .emit [⟨"chr1".data, 99, 100, "v1".data, "A".data, "T".data, ".".data, ".".data,
        "SVTYPE=DUP;CIEND=100;SVLEN=-50".data, "GT".data⟩] false false := by decide

/-- Counterexample for C7: with `END` occurring twice, the extractor returns
the value of the first occurrence, not the last. -/
theorem c7_last_occurrence_counterexample :
    extract_info_field "SVTYPE=DEL;END=5;END=7".data "END".data = some "5".data ∧
    extract_info_field "SVTYPE=DEL;END=5;END=7".data "END".data ≠ some "7".data := by decide

/-- C7 (amended).  The extractor uses the first (leftmost) successful match of
`NAME=([^;]+)`: if offset `k` matches and no earlier offset does, the value is
the greedy non-semicolon run at `k`, irrespective of any later duplicate
occurrences of the key. -/
theorem c7_first_occurrence_amended (name info : List Char) (k : Nat)
    (hg : goodMatchAt name info k) (hmin : ∀ j, j < k → ¬ goodMatchAt name info j) :
    extract_info_field info name =
      some (((info.drop k).drop (name.length + 1)).takeWhile (fun x => x != ';')) :=
  searchKV_leftmost name k info hg hmin

/-- Witness for the amended C7 at the duplicate-key input `END=5;END=7`. -/
theorem c7_first_occurrence_amended_witness :
    extract_info_field "SVTYPE=DEL;END=5;END=7".data "END".data =
      some (((("SVTYPE=DEL;END=5;END=7".data).drop 11).drop 4).takeWhile
        (fun x => x != ';')) :=
  c7_first_occurrence_amended "END".data "SVTYPE=DEL;END=5;END=7".data 11
    (by decide) (by decide)

end TRACE

namespace TRACE

/-- Counterexample for C8: a data line with exactly 8 tab-separated fields is
rejected for its field count, and an unparsable coordinate aborts the whole
run — the following well-formed line is never converted, although it would
convert on its own. -/
theorem c8_malformed_line_counterexample :
    vcfProcessLine true false "chr1\t100\tv1\tA\tT\t.\t.\tSVTYPE=DEL".data = .skipFields ∧
    (splitTab (pyStrip "chr1\t100\tv1\tA\tT\t.\t.\tSVTYPE=DEL".data)).length = 8 ∧
    vcfRun true false ["chr1\tabc\tv1\tA\tT\t.\t.\tSVTYPE=DEL\tGT".data,
      "chr1\t100\tv2\tA\tT\t.\t.\tSVTYPE=DEL\tGT".data] = none ∧
    vcfProcessLine true false "chr1\t100\tv2\tA\tT\t.\t.\tSVTYPE=DEL\tGT".data =
      .emit [⟨"chr1".data, 99, 100, "v2".data, "A".data, "T".data, ".".data, ".".data,
        "SVTYPE=DEL".data, "GT".data⟩] false false := by decide

/-- C8 (amended).  Lines with fewer than 9 tab-separated fields — hence also
8-field lines — are reported and skipped, and the run continues with the next
line; a line whose coordinate field fails integer parsing instead raises an
exception that aborts the whole run, so no later line is processed. -/
theorem c8_malformed_line_amended :
    (∀ (pb ii : Bool) (line : List Char), line.head? ≠ some '#' →
      (splitTab (pyStrip line)).length < 9 → vcfProcessLine pb ii line = .skipFields) ∧
    (∀ (pb ii : Bool) (l : List Char) (rest : List (List Char)),
      vcfProcessLine pb ii l = .skipFields → vcfRun pb ii (l :: rest) = vcfRun pb ii rest) ∧
    (∀ (pb ii : Bool) (l : List Char) (rest : List (List Char)),
      vcfProcessLine pb ii l = .abort → vcfRun pb ii (l :: rest) = none) ∧
    (∀ (pb ii : Bool) (line : List Char), line.head? ≠ some '#' →
      ¬ (splitTab (pyStrip line)).length < 9 →
      pyInt? ((splitTab (pyStrip line)).getD 1 []) = none →
      vcfProcessLine pb ii line = .abort) := by
  refine ⟨?_, ?_, ?_, ?_⟩
  · intro pb ii line h1 h2
    unfold vcfProcessLine
    rw [if_neg h1]
    dsimp only
    rw [if_pos h2]
  · intro pb ii l rest h
    simp [vcfRun, h]
  · intro pb ii l rest h
    simp [vcfRun, h]
  · intro pb ii line h1 h2 h3
    unfold vcfProcessLine
    rw [if_neg h1]
    dsimp only
    rw [if_neg h2, h3]

end TRACE

namespace TRACE

/-- Witness for the amended C8 at the 8-field line. -/
theorem c8_malformed_line_amended_witness :
    vcfProcessLine true false "chr1\t100\tv1\tA\tT\t.\t.\tSVTYPE=DEL".data = .skipFields :=
  c8_malformed_line_amended.1 true false _ (by decide) (by decide)

theorem set12_tab_free (fields : List (List Char)) (a b : Int)
    (htab : ∀ f ∈ fields, '\t' ∉ f) :
    ∀ f ∈ (fields.set 1 (intRepr a)).set 2 (intRepr b), '\t' ∉ f := by
  intro f hf
  rcases List.mem_or_eq_of_mem_set hf with hf1 | hf1
  · rcases List.mem_or_eq_of_mem_set hf1 with hf2 | hf2
    · exact htab f hf2
    · rw [hf2]; exact tab_not_mem_intRepr a
  · rw [hf1]; exact tab_not_mem_intRepr b

theorem processed_fields_split (fields : List (List Char)) (a b : Int)
    (h3 : 3 ≤ fields.length) (htab : ∀ f ∈ fields, '\t' ∉ f) :
    splitTab (joinTab ((fields.set 1 (intRepr a)).set 2 (intRepr b))) =
      (fields.set 1 (intRepr a)).set 2 (intRepr b) := by
  apply splitTab_joinTab
  · intro hnil
    have := congrArg List.length hnil
    simp only [List.length_set, List.length_nil] at this
    omega
  · exact set12_tab_free fields a b htab

theorem set12_getElem (fields : List (List Char)) (a b : List Char) (h3 : 3 ≤ fields.length) :
    ((fields.set 1 a).set 2 b)[1]? = some a ∧ ((fields.set 1 a).set 2 b)[2]? = some b ∧
    ∀ i, i ≠ 1 → i ≠ 2 → ((fields.set 1 a).set 2 b)[i]? = fields[i]? := by
  refine ⟨?_, ?_, ?_⟩
  · rw [List.getElem?_set_ne (by decide), List.getElem?_set_self (by omega)]
  · rw [List.getElem?_set_self (by simp [List.length_set]; omega)]
  · intro i h1 h2
    rw [List.getElem?_set_ne (fun he => h2 he.symm), List.getElem?_set_ne (fun he => h1 he.symm)]

end TRACE

namespace TRACE

/-- C3.  A DEL line produces exactly one output row with
`start = max(min_coord, start - F)` and `end = end + F` and all other fields
unchanged; `process_bed_line` dispatches every DEL line to this rewriting; and
the spec's scenario line, converted by vcf2bed and then flanked with
`F = 1000, min_coord = 0`, yields the interval `chr1 0 3000`. -/
theorem c3_deletion_flanking :
    (∀ (start stop : Int) (fields : List (List Char)) (flank minc : Int),
      3 ≤ fields.length → (∀ f ∈ fields, '\t' ∉ f) →
      ∃ row, process_deletion start stop fields flank minc = [row] ∧
        (splitTab row)[1]? = some (intRepr (max minc (start - flank))) ∧
        (splitTab row)[2]? = some (intRepr (stop + flank)) ∧
        ∀ i, i ≠ 1 → i ≠ 2 → (splitTab row)[i]? = fields[i]?) ∧
    (∀ (line : List Char) (flank minc : Int) (skip : Bool) (start stop : Int)
       (info : List Char),
      pyStrip line ≠ [] → (pyStrip line).head? ≠ some '#' →
      ¬ (splitTab (pyStrip line)).length < 8 →
      pyInt? ((splitTab (pyStrip line)).getD 1 []) = some start →
      pyInt? ((splitTab (pyStrip line)).getD 2 []) = some stop →
      findInfoField (splitTab (pyStrip line)) = some info →
      extract_svtype info = some "DEL".data →
      process_bed_line line flank minc skip =
        .ok (process_deletion start stop (splitTab (pyStrip line)) flank minc)) ∧
    (vcfProcessLine true false
        "chr1\t1000\tvarA\tA\t<DEL>\t.\t.\tSVTYPE=DEL;END=2000\tGT".data =
      .emit [⟨"chr1".data, 999, 2000, "varA".data, "A".data, "<DEL>".data, ".".data, ".".data,
        "SVTYPE=DEL;END=2000".data, "GT".data⟩] false false) ∧
    (process_bed_line (writeBedRow ⟨"chr1".data, 999, 2000, "varA".data, "A".data, "<DEL>".data,
        ".".data, ".".data, "SVTYPE=DEL;END=2000".data, "GT".data⟩) 1000 0 false =
      .ok ["chr1\t0\t3000\tvarA\tA\t<DEL>\t.\t.\tSVTYPE=DEL;END=2000\tGT".data]) := by
  refine ⟨?_, ?_, by decide, by decide⟩
  · intro start stop fields flank minc h3 htab
    refine ⟨_, rfl, ?_, ?_, ?_⟩
    · rw [processed_fields_split fields _ _ h3 htab]
      exact (set12_getElem fields _ _ h3).1
    · rw [processed_fields_split fields _ _ h3 htab]
      exact (set12_getElem fields _ _ h3).2.1
    · intro i h1 h2
      rw [processed_fields_split fields _ _ h3 htab]
      exact (set12_getElem fields _ _ h3).2.2 i h1 h2
  · intro line flank minc skip start stop info h1 h2 h3 h4 h5 h6 h7
    unfold process_bed_line
    rw [if_neg h1, if_neg h2]
    dsimp only
    rw [if_neg h3]
    rw [h4, h5, h6]
    dsimp only
    rw [h7]
    dsimp only
    rw [if_pos rfl]

end TRACE

namespace TRACE

/-- Witness for C3: the general DEL property applied to a concrete 8-field
BED record. -/
theorem c3_deletion_flanking_witness :
    ∃ row, process_deletion 1000 2000 ["chr1".data, "1000".data, "2000".data, "varA".data,
        "A".data, "<DEL>".data, ".".data, "SVTYPE=DEL;END=2000".data] 1000 0 = [row] ∧
      (splitTab row)[1]? = some (intRepr (max 0 (1000 - 1000))) ∧
      (splitTab row)[2]? = some (intRepr (2000 + 1000)) ∧
      ∀ i, i ≠ 1 → i ≠ 2 → (splitTab row)[i]? =
        (["chr1".data, "1000".data, "2000".data, "varA".data, "A".data, "<DEL>".data,
          ".".data, "SVTYPE=DEL;END=2000".data] : List (List Char))[i]? :=
  c3_deletion_flanking.1 1000 2000 _ 1000 0 (by decide) (by decide)

/-- C4.  A DUP or INV line produces exactly two output rows, in order: row A
flanks the start breakpoint, row B the end breakpoint, and both retain every
field other than the coordinates (in particular the id, field 3);
`process_bed_line` dispatches every DUP/INV line to this rewriting. -/
theorem c4_dup_inv_two_rows :
    (∀ (start stop : Int) (fields : List (List Char)) (flank minc : Int),
      3 ≤ fields.length → (∀ f ∈ fields, '\t' ∉ f) →
      ∃ rowA rowB,
        process_duplication_inversion start stop fields flank minc = [rowA, rowB] ∧
        (splitTab rowA)[1]? = some (intRepr (max minc (start - flank))) ∧
        (splitTab rowA)[2]? = some (intRepr (start + flank)) ∧
        (splitTab rowB)[1]? = some (intRepr (max minc (stop - flank))) ∧
        (splitTab rowB)[2]? = some (intRepr (stop + flank)) ∧
        ∀ i, i ≠ 1 → i ≠ 2 →
          (splitTab rowA)[i]? = fields[i]? ∧ (splitTab rowB)[i]? = fields[i]?) ∧
    (∀ (line : List Char) (flank minc : Int) (skip : Bool) (start stop : Int)
       (info svt : List Char),
      pyStrip line ≠ [] → (pyStrip line).head? ≠ some '#' →
      ¬ (splitTab (pyStrip line)).length < 8 →
      pyInt? ((splitTab (pyStrip line)).getD 1 []) = some start →
      pyInt? ((splitTab (pyStrip line)).getD 2 []) = some stop →
      findInfoField (splitTab (pyStrip line)) = some info →
      extract_svtype info = some svt →
      (svt = "DUP".data ∨ svt = "INV".data) →
      process_bed_line line flank minc skip =
        .ok (process_duplication_inversion start stop (splitTab (pyStrip line)) flank minc)) := by
  constructor
  · intro start stop fields flank minc h3 htab
    refine ⟨_, _, rfl, ?_, ?_, ?_, ?_, ?_⟩
    · rw [processed_fields_split fields _ _ h3 htab]
      exact (set12_getElem fields _ _ h3).1
    · rw [processed_fields_split fields _ _ h3 htab]
      exact (set12_getElem fields _ _ h3).2.1
    · rw [processed_fields_split fields _ _ h3 htab]
      exact (set12_getElem fields _ _ h3).1
    · rw [processed_fields_split fields _ _ h3 htab]
      exact (set12_getElem fields _ _ h3).2.1
    · intro i h1 h2
      constructor
      · rw [processed_fields_split fields _ _ h3 htab]
        exact (set12_getElem fields _ _ h3).2.2 i h1 h2
      · rw [processed_fields_split fields _ _ h3 htab]
        exact (set12_getElem fields _ _ h3).2.2 i h1 h2
  · intro line flank minc skip start stop info svt h1 h2 h3 h4 h5 h6 h7 h8
    unfold process_bed_line
    rw [if_neg h1, if_neg h2]
    dsimp only
    rw [if_neg h3]
    rw [h4, h5, h6]
    dsimp only
    rw [h7]
    dsimp only
    rw [if_neg (by rcases h8 with h | h <;> subst h <;> decide), if_pos h8]

/-- Witness for C4: the general DUP/INV property applied to a concrete
8-field BED record. -/
theorem c4_dup_inv_two_rows_witness :
    ∃ rowA rowB,
      process_duplication_inversion 5000 9000 ["chr1".data, "5000".data, "9000".data,
        "v2".data, "A".data, "<DUP>".data, ".".data, "SVTYPE=DUP".data] 1000 0 = [rowA, rowB] ∧
      (splitTab rowA)[1]? = some (intRepr (max 0 (5000 - 1000))) ∧
      (splitTab rowA)[2]? = some (intRepr (5000 + 1000)) ∧
      (splitTab rowB)[1]? = some (intRepr (max 0 (9000 - 1000))) ∧
      (splitTab rowB)[2]? = some (intRepr (9000 + 1000)) ∧
      ∀ i, i ≠ 1 → i ≠ 2 →
        (splitTab rowA)[i]? = (["chr1".data, "5000".data, "9000".data, "v2".data, "A".data,
          "<DUP>".data, ".".data, "SVTYPE=DUP".data] : List (List Char))[i]? ∧
        (splitTab rowB)[i]? = (["chr1".data, "5000".data, "9000".data, "v2".data, "A".data,
          "<DUP>".data, ".".data, "SVTYPE=DUP".data] : List (List Char))[i]? :=
  c4_dup_inv_two_rows.1 5000 9000 _ 1000 0 (by decide) (by decide)

/-- Counterexample for C9: a line with start `-5` and an SVTYPE outside
DEL/DUP/INV is passed through unchanged, so the emitted row's start is below
the `min_coord` floor of 0. -/
theorem c9_min_coord_counterexample :
    process_bed_line "chr1\t-5\t10\tv\tA\tT\t.\tSVTYPE=BND\tGT".data 1000 0 false =
      .ok ["chr1\t-5\t10\tv\tA\tT\t.\tSVTYPE=BND\tGT".data] ∧
    pyInt? ((splitTab "chr1\t-5\t10\tv\tA\tT\t.\tSVTYPE=BND\tGT".data).getD 1 []) =
      some (-5) ∧ ((-5 : Int) < 0) := by decide

/-- C9 (amended).  Every row emitted by the DEL and DUP/INV rewriting branches
satisfies `start ≥ min_coord`; the pass-through branches return the input line
unchanged and are not covered by the invariant. -/
theorem c9_min_coord_amended (start stop : Int) (fields : List (List Char))
    (flank minc : Int) (row : List Char)
    (h3 : 3 ≤ fields.length) (htab : ∀ f ∈ fields, '\t' ∉ f)
    (hrow : row ∈ process_deletion start stop fields flank minc ++
      process_duplication_inversion start stop fields flank minc) :
    ∃ s : Int, (splitTab row)[1]? = some (intRepr s) ∧ minc ≤ s := by
  simp only [process_deletion, process_duplication_inversion, List.mem_append,
    List.mem_cons, List.not_mem_nil, or_false] at hrow
  rcases hrow with h | h | h <;> subst h
  · exact ⟨max minc (start - flank),
      by rw [processed_fields_split fields _ _ h3 htab]; exact (set12_getElem fields _ _ h3).1,
      le_max_left _ _⟩
  · exact ⟨max minc (start - flank),
      by rw [processed_fields_split fields _ _ h3 htab]; exact (set12_getElem fields _ _ h3).1,
      le_max_left _ _⟩
  · exact ⟨max minc (stop - flank),
      by rw [processed_fields_split fields _ _ h3 htab]; exact (set12_getElem fields _ _ h3).1,
      le_max_left _ _⟩

/-- Witness for the amended C9 at a concrete DEL rewriting. -/
theorem c9_min_coord_amended_witness :
    ∃ s : Int, (splitTab "c\t0\t1020\tv\tA\tT\t.\tSVTYPE=DEL".data)[1]? =
      some (intRepr s) ∧ (0 : Int) ≤ s :=
  c9_min_coord_amended 10 20 ["c".data, "10".data, "20".data, "v".data, "A".data,
    "T".data, ".".data, "SVTYPE=DEL".data] 1000 0 _ (by decide) (by decide) (by decide)

end TRACE

namespace TRACE

theorem squashProcessLine_length {delim : Char} {line k : List Char} {v : List (List Char)}
    (h : squashProcessLine delim line = some (k, v)) : v.length = 9 := by
  unfold squashProcessLine at h
  dsimp only at h
  split at h
  · exact absurd h (by simp)
  · split at h
    · exact absurd h (by simp)
    · split at h
      · exact absurd h (by simp)
      · rename_i hlen
        injection h with h'
        have hv : v = ((pyStrip line).splitOn delim |>.drop 10).take 9 :=
          (congrArg Prod.snd h').symm
        rw [hv, List.length_take, List.length_drop]
        omega

theorem tuplesFor_addEntry (acc : List (List Char × List (List (List Char))))
    (k₁ k : List Char) (v : List (List Char)) :
    tuplesFor (addEntry acc k₁ v) k =
      if k₁ = k then tuplesFor acc k ++ [v] else tuplesFor acc k := by
  induction acc with
  | nil => by_cases hk : k₁ = k <;> simp [addEntry, tuplesFor, hk]
  | cons hd tl ih =>
    obtain ⟨ka, va⟩ := hd
    by_cases ha : ka = k₁
    · subst ha
      by_cases hk : ka = k
      · subst hk
        simp [addEntry, tuplesFor]
      · simp [addEntry, tuplesFor, hk]
    · by_cases hk : ka = k
      · subst hk
        have hk1 : ¬ k₁ = ka := fun he => ha he.symm
        simp [addEntry, tuplesFor, ha, hk1]
      · simp [addEntry, tuplesFor, ha, hk, ih]

theorem tuplesFor_foldl (delim : Char) :
    ∀ (lines : List (List Char)) (acc : List (List Char × List (List (List Char))))
      (k : List Char),
      tuplesFor (lines.foldl (squashStep delim) acc) k =
        tuplesFor acc k ++
          ((lines.filterMap (squashProcessLine delim)).filter
            (fun p => decide (p.1 = k))).map Prod.snd := by
  intro lines
  induction lines with
  | nil => intro acc k; simp
  | cons l ls ih =>
    intro acc k
    rw [List.foldl_cons]
    cases hf : squashProcessLine delim l with
    | none =>
      rw [show squashStep delim acc l = acc by simp [squashStep, hf]]
      rw [ih acc k]
      simp [List.filterMap_cons, hf]
    | some p =>
      obtain ⟨k₁, v⟩ := p
      rw [show squashStep delim acc l = addEntry acc k₁ v by simp [squashStep, hf]]
      rw [ih (addEntry acc k₁ v) k, tuplesFor_addEntry]
      by_cases hk : k₁ = k
      · subst hk
        simp [List.filterMap_cons, hf, List.filter_cons]
      · simp [List.filterMap_cons, hf, List.filter_cons, hk]

theorem tuplesFor_squash (delim : Char) (lines : List (List Char)) (k : List Char) :
    tuplesFor (squash_variants delim lines) k =
      ((lines.filterMap (squashProcessLine delim)).filter
        (fun p => decide (p.1 = k))).map Prod.snd := by
  unfold squash_variants
  rw [tuplesFor_foldl]
  rfl

end TRACE

namespace TRACE

theorem mem_intercalate_single {x c : Char} {ls : List (List Char)}
    (h : c ∈ List.intercalate [x] ls) : c = x ∨ ∃ l ∈ ls, c ∈ l := by
  induction ls with
  | nil => simp [List.intercalate, List.intersperse] at h
  | cons a tail ih =>
    cases tail with
    | nil =>
      simp only [List.intercalate, List.intersperse, List.flatten] at h
      exact Or.inr ⟨a, by simp, by simpa using h⟩
    | cons b tail2 =>
      rw [show List.intercalate [x] (a :: b :: tail2) =
          a ++ x :: List.intercalate [x] (b :: tail2) by
        simp [List.intercalate, List.intersperse]] at h
      rcases List.mem_append.mp h with h | h
      · exact Or.inr ⟨a, by simp, h⟩
      · rcases List.mem_cons.mp h with h | h
        · exact Or.inl h
        · rcases ih h with h | ⟨l, hl, hcl⟩
          · exact Or.inl h
          · exact Or.inr ⟨l, by simp [hl], hcl⟩

/-- Counterexample for C5: an aggregated tuple whose first element contains
the field delimiter does not survive the split-on-pipe-then-comma read-back —
the claimed round trip fails for this key. -/
theorem c5_roundtrip_counterexample :
    tuplesFor (squash_variants '\t'
        ["c\t0\t1\tv1\t.\t.\t.\t.\t.\t.\ta,b\tc2\tc3\tc4\tc5\tc6\tc7\tc8\tc9".data])
        "v1".data =
      [["a,b".data, "c2".data, "c3".data, "c4".data, "c5".data, "c6".data, "c7".data,
        "c8".data, "c9".data]] ∧
    splitElements (formatElements [["a,b".data, "c2".data, "c3".data, "c4".data, "c5".data,
        "c6".data, "c7".data, "c8".data, "c9".data]]) ≠
      [["a,b".data, "c2".data, "c3".data, "c4".data, "c5".data, "c6".data, "c7".data,
        "c8".data, "c9".data]] := by decide

/-- C5 (amended).  For a key with at least one aggregated row, splitting the
Elements column on the row delimiter and then the field delimiter reproduces
the key's element tuples in source-row encounter order, provided no element
contains the field delimiter `,` or the row delimiter `|`. -/
theorem c5_roundtrip_amended (delim : Char) (lines : List (List Char)) (k : List Char)
    (hne : tuplesFor (squash_variants delim lines) k ≠ [])
    (hfree : ∀ t ∈ tuplesFor (squash_variants delim lines) k,
      ∀ e ∈ t, ',' ∉ e ∧ '|' ∉ e) :
    splitElements (formatElements (tuplesFor (squash_variants delim lines) k)) =
      ((lines.filterMap (squashProcessLine delim)).filter
        (fun p => decide (p.1 = k))).map Prod.snd := by
  rw [← tuplesFor_squash]
  have hlen : ∀ t ∈ tuplesFor (squash_variants delim lines) k, t ≠ [] := by
    intro t ht
    rw [tuplesFor_squash] at ht
    simp only [List.mem_map, List.mem_filter] at ht
    obtain ⟨p, ⟨hpmem, _⟩, hp2⟩ := ht
    obtain ⟨l, _, hfl⟩ := List.mem_filterMap.mp hpmem
    obtain ⟨k₁, v₁⟩ := p
    cases hp2
    have := squashProcessLine_length hfl
    intro hnil
    simp only at hnil
    rw [hnil] at this
    simp at this
  unfold splitElements formatElements
  rw [List.splitOn_intercalate]
  · have hmap : ∀ t ∈ tuplesFor (squash_variants delim lines) k,
        List.splitOn ',' (List.intercalate [','] t) = t := by
      intro t ht
      exact List.splitOn_intercalate t ','
        (fun e he hc => ((hfree t ht e he).1 hc)) (hlen t ht)
    rw [List.map_map]
    calc (tuplesFor (squash_variants delim lines) k).map
          ((fun r => r.splitOn ',') ∘ (List.intercalate [',']))
        = (tuplesFor (squash_variants delim lines) k).map id := by
          apply List.map_congr_left
          intro t ht
          exact hmap t ht
      _ = tuplesFor (squash_variants delim lines) k := List.map_id _
  · intro piece hpiece hpmem
    obtain ⟨t, ht, hpt⟩ := List.mem_map.mp hpiece
    rw [← hpt] at hpmem
    rcases mem_intercalate_single hpmem with h | ⟨e, he, hce⟩
    · exact absurd h (by decide)
    · exact (hfree t ht e he).2 hce
  · intro hnil
    exact hne (by simpa using hnil)

/-- Witness for the amended C5 at a two-row aggregation. -/
theorem c5_roundtrip_amended_witness :
    splitElements (formatElements (tuplesFor (squash_variants '\t'
        ["c\t0\t1\tv1\t.\t.\t.\t.\t.\t.\ta\tb\tc\td\te\tf\tg\th\ti".data,
         "c\t0\t1\tv1\t.\t.\t.\t.\t.\t.\tj\tk\tl\tm\tn\to\tp\tq\tr".data])
        "v1".data)) =
      ((["c\t0\t1\tv1\t.\t.\t.\t.\t.\t.\ta\tb\tc\td\te\tf\tg\th\ti".data,
         "c\t0\t1\tv1\t.\t.\t.\t.\t.\t.\tj\tk\tl\tm\tn\to\tp\tq\tr".data].filterMap
        (squashProcessLine '\t')).filter
          (fun p => decide (p.1 = "v1".data))).map Prod.snd :=
  c5_roundtrip_amended '\t' _ _ (by decide) (by decide)

end TRACE

namespace TRACE

/-- Counterexample for C1: in the INFO field `SVTYPE=DUP;CIEND=100;SVLEN=-50`
the END key is absent (no semicolon-separated piece starts with `END=`) and
the SVLEN key is present with value `-50`, so the claim mandates
`end = pos + 50 = 150`; the converter instead emits `end = 100`, taken from
the substring match inside `CIEND=100`. -/
theorem c1_end_resolution_counterexample :
    ("SVTYPE=DUP;CIEND=100;SVLEN=-50".data.splitOn ';').all
      (fun piece => !("END=".data.isPrefixOf piece)) = true ∧
    ("SVTYPE=DUP;CIEND=100;SVLEN=-50".data.splitOn ';').filter
      (fun piece => "SVLEN=".data.isPrefixOf piece) = ["SVLEN=-50".data] ∧
    pyInt? "-50".data = some (-50) ∧
    vcfProcessLine true false
        "chr1\t100\tv1\tA\tT\t.\t.\tSVTYPE=DUP;CIEND=100;SVLEN=-50\tGT".data =
      .emit [⟨"chr1".data, 99, 100, "v1".data, "A".data, "T".data, ".".data, ".".data,
        "SVTYPE=DUP;CIEND=100;SVLEN=-50".data, "GT".data⟩] false false ∧
    (100 : Int) ≠ 100 + 50 := by decide

/-- Witness for the amended C1: the end-resolution property applied to the
spec's DEL scenario line. -/
theorem c1_end_resolution_amended_witness :
    ∃ pos r rest,
      pyInt? ((splitTab (pyStrip
        "chr1\t1000\tvarA\tA\t<DEL>\t.\t.\tSVTYPE=DEL;END=2000\tGT".data)).getD 1 []) =
          some pos ∧
      ([⟨"chr1".data, 999, 2000, "varA".data, "A".data, "<DEL>".data, ".".data, ".".data,
        "SVTYPE=DEL;END=2000".data, "GT".data⟩] : List BedRow) = r :: rest ∧
      r.start = pos - 1 ∧
      extractorResolvedEnd ((splitTab (pyStrip
        "chr1\t1000\tvarA\tA\t<DEL>\t.\t.\tSVTYPE=DEL;END=2000\tGT".data)).getD 7 []) pos =
          some r.stop :=
  c1_end_resolution_amended true false _ _ false false (by decide)

end TRACE
